import Mathlib

/-!
Shallow embedding of the digital-library application (app.py, models.py,
forms.py): a catalog of books, registered users, and borrow records, with
the borrowing, returning, catalog-management and registration operations
translated from the Flask route handlers. Timestamps are modelled as
natural numbers (seconds); database tables are lists of structures;
each route handler becomes a pure function from a library state to
either an error signal or the updated state.
-/

namespace DigitalLibrary

/-- Role of an account: the registration form offers exactly the two
choices student and librarian (forms.py, RegistrationForm.role). -/
inductive Role where
  | student
  | librarian
deriving DecidableEq

/-- Status of a borrow record: borrowed, returned, or overdue
(models.py, BorrowRecord.status). -/
inductive BorrowStatus where
  | borrowed
  | returned
  | overdue
deriving DecidableEq

/-- A row of the users table (models.py, class User). -/
structure User where
  id : Nat
  username : String
  email : String
  password : String
  role : Role
deriving DecidableEq

/-- A row of the books table (models.py, class Book). -/
structure Book where
  id : Nat
  title : String
  author : String
  isbn : String
  category : String
  description : String
  quantity : Int
  available_quantity : Int
  publication_year : Option Int
deriving DecidableEq

/-- A row of the borrow_records table (models.py, class BorrowRecord). -/
structure BorrowRecord where
  id : Nat
  user_id : Nat
  book_id : Nat
  borrow_date : Nat
  return_date : Option Nat
  due_date : Nat
  status : BorrowStatus
deriving DecidableEq

/-- The persisted state: the three relational tables. -/
structure LibraryState where
  users : List User
  books : List Book
  records : List BorrowRecord
deriving DecidableEq

/-- The user-facing failure signals of the route handlers
(flash messages and redirects in app.py). -/
inductive LibError where
  | RoleDenied
  | Unavailable
  | DuplicateBorrow
  | AlreadyReturned
  | NotFound
  | Conflict
  | ValidationError
deriving DecidableEq

instance {ε α : Type} [DecidableEq ε] [DecidableEq α] :
    DecidableEq (Except ε α) := fun a b =>
  match a, b with
  | .error e, .error f =>
    if h : e = f then .isTrue (by rw [h]) else .isFalse (by
      intro hc; injection hc; exact h (by assumption))
  | .error _, .ok _ => .isFalse (by intro hc; exact Except.noConfusion hc)
  | .ok _, .error _ => .isFalse (by intro hc; exact Except.noConfusion hc)
  | .ok x, .ok y =>
    if h : x = y then .isTrue (by rw [h]) else .isFalse (by
      intro hc; injection hc; exact h (by assumption))

/-- Look up a user by primary key (User.query.get). -/
def getUser (st : LibraryState) (uid : Nat) : Option User :=
  st.users.find? (fun u => u.id == uid)

/-- Look up a book by primary key (Book.query.get / get_or_404). -/
def getBook (st : LibraryState) (bid : Nat) : Option Book :=
  st.books.find? (fun b => b.id == bid)

/-- Look up a borrow record by primary key (BorrowRecord.query.get_or_404). -/
def getRecord (st : LibraryState) (rid : Nat) : Option BorrowRecord :=
  st.records.find? (fun r => r.id == rid)

/-- Seconds in fourteen days: the borrowing period
(timedelta in app.py, borrow_book). -/
def fourteen_days : Nat := 14 * 24 * 60 * 60

/-- BorrowRecord.is_overdue (models.py): false once returned, otherwise
true exactly when the current time is past the due date. -/
def is_overdue (r : BorrowRecord) (now : Nat) : Bool :=
  if r.status = .returned then false else decide (now > r.due_date)

/-- The borrow record created by a successful borrow (app.py,
borrow_book): borrowed now, due in fourteen days, not yet returned. -/
def newBorrowRecord (u : User) (book_id : Nat) (now : Nat) (new_record_id : Nat) :
    BorrowRecord :=
  { id := new_record_id
    user_id := u.id
    book_id := book_id
    borrow_date := now
    return_date := none
    due_date := now + fourteen_days
    status := .borrowed }

/-- app.py, borrow_book: only students may borrow; the book must exist
and have at least one available copy; a borrow is refused when the user
already holds a record for this book whose status is borrowed (the query
filters on status equal to borrowed only); on success one record is
created and the available count of the book drops by one. -/
def borrow_book (st : LibraryState) (u : User) (book_id : Nat) (now : Nat)
    (new_record_id : Nat) : Except LibError LibraryState :=
  if u.role ≠ .student then .error .RoleDenied
  else
    match getBook st book_id with
    | none => .error .NotFound
    | some book =>
      if book.available_quantity < 1 then .error .Unavailable
      else if st.records.any (fun r =>
          r.user_id == u.id && r.book_id == book_id && r.status == .borrowed) then
        .error .DuplicateBorrow
      else
        .ok { st with
          books := st.books.map (fun b =>
            if b.id = book_id then
              { b with available_quantity := b.available_quantity - 1 }
            else b)
          records := st.records ++ [newBorrowRecord u book_id now new_record_id] }

/-- app.py, return_book: the requester must own the record or be a
librarian; a record already returned is reported as such and nothing
changes; otherwise the record gets its return date and the returned
status and the available count of the referenced book rises by one. -/
def return_book (st : LibraryState) (record_id : Nat) (requester : User)
    (now : Nat) : Except LibError LibraryState :=
  match getRecord st record_id with
  | none => .error .NotFound
  | some r0 =>
    if r0.user_id ≠ requester.id ∧ requester.role ≠ .librarian then
      .error .RoleDenied
    else if r0.status = .returned then .error .AlreadyReturned
    else
      .ok { st with
        records := st.records.map (fun r =>
          if r.id = record_id then
            { r with return_date := some now, status := .returned }
          else r)
        books := st.books.map (fun b =>
          if b.id = r0.book_id then
            { b with available_quantity := b.available_quantity + 1 }
          else b) }

/-- The fields of the book form (forms.py, BookForm), as received by the
add and edit handlers after field validation. -/
structure BookForm where
  title : String
  author : String
  isbn : String
  category : String
  description : String
  quantity : Int
  publication_year : Option Int
deriving DecidableEq

/-- app.py, add_book: refuse when a book with the same ISBN string
already exists; otherwise insert the book with every copy available. -/
def add_book (st : LibraryState) (form : BookForm) (new_book_id : Nat) :
    Except LibError LibraryState :=
  if st.books.any (fun b => b.isbn == form.isbn) then .error .ValidationError
  else
    .ok { st with books := st.books ++
      [{ id := new_book_id
         title := form.title
         author := form.author
         isbn := form.isbn
         category := form.category
         description := form.description
         quantity := form.quantity
         available_quantity := form.quantity
         publication_year := form.publication_year }] }

/-- app.py, edit_book: overwrite the descriptive fields, and recompute
availability so that the number of borrowed copies is preserved:
borrowed_count is the old quantity minus the old available count, and the
new available count is the new quantity minus borrowed_count. -/
def edit_book (st : LibraryState) (book_id : Nat) (form : BookForm) :
    Except LibError LibraryState :=
  match getBook st book_id with
  | none => .error .NotFound
  | some _ =>
    .ok { st with books := st.books.map (fun b =>
      if b.id = book_id then
        { b with
          title := form.title
          author := form.author
          isbn := form.isbn
          category := form.category
          description := form.description
          quantity := form.quantity
          available_quantity :=
            form.quantity - (b.quantity - b.available_quantity)
          publication_year := form.publication_year }
      else b) }

/-- app.py, delete_book: refuse with a conflict while the book has any
record whose status is borrowed (the count filters on status equal to
borrowed only); otherwise remove the book, and with it every borrow
record referencing it (the cascade on the relationship in models.py). -/
def delete_book (st : LibraryState) (book_id : Nat) :
    Except LibError LibraryState :=
  match getBook st book_id with
  | none => .error .NotFound
  | some _ =>
    if 0 < (st.records.filter (fun r =>
        r.book_id == book_id && r.status == .borrowed)).length then
      .error .Conflict
    else
      .ok { st with
        books := st.books.filter (fun b => !(b.id == book_id))
        records := st.records.filter (fun r => !(r.book_id == book_id)) }

/-- One pass of the lazy overdue update applied to a single record
(app.py, librarian_dashboard and student_dashboard): a record whose
status is borrowed and which is_overdue reports as overdue gets the
overdue status; every other record is untouched. -/
def refresh_record (now : Nat) (r : BorrowRecord) : BorrowRecord :=
  if r.status = .borrowed ∧ is_overdue r now then { r with status := .overdue }
  else r

/-- The dashboard sweep over the whole ledger (app.py,
librarian_dashboard): update every borrowed record past its due date. -/
def refresh_overdue (recs : List BorrowRecord) (now : Nat) :
    List BorrowRecord :=
  recs.map (refresh_record now)

/-- app.py, register together with the custom validators of forms.py,
RegistrationForm: a username already present, or an email already
present, fails validation (exact string match, the query of
validate_username and validate_email) and no account is created;
otherwise an account with the requested role is appended. The handler
takes no requester: registration is open to unauthenticated visitors,
and the role is chosen by the registrant from the two form choices. -/
def register (st : LibraryState) (username email password : String)
    (role : Role) (new_user_id : Nat) : Except LibError LibraryState :=
  if st.users.any (fun u => u.username == username) then .error .ValidationError
  else if st.users.any (fun u => u.email == email) then .error .ValidationError
  else
    .ok { st with users := st.users ++
      [{ id := new_user_id
         username := username
         email := email
         password := password
         role := role }] }

/-- The available count of a book, when the book exists. -/
def available_of (st : LibraryState) (bid : Nat) : Option Int :=
  (getBook st bid).map (fun b => b.available_quantity)

/-- Run a borrow, keeping the old state on failure (a failed request
commits nothing). -/
def runBorrow (st : LibraryState) (u : User) (bid now rid : Nat) :
    LibraryState :=
  match borrow_book st u bid now rid with
  | .ok s => s
  | .error _ => st

/-- Run a return, keeping the old state on failure. -/
def runReturn (st : LibraryState) (rid : Nat) (u : User) (now : Nat) :
    LibraryState :=
  match return_book st rid u now with
  | .ok s => s
  | .error _ => st

/-- Run an edit, keeping the old state on failure. -/
def runEdit (st : LibraryState) (bid : Nat) (form : BookForm) : LibraryState :=
  match edit_book st bid form with
  | .ok s => s
  | .error _ => st

/-- Run a deletion, keeping the old state on failure. -/
def runDelete (st : LibraryState) (bid : Nat) : LibraryState :=
  match delete_book st bid with
  | .ok s => s
  | .error _ => st

/-- Run a registration, keeping the old state on failure. -/
def runRegister (st : LibraryState) (username email password : String)
    (role : Role) (nid : Nat) : LibraryState :=
  match register st username email password role nid with
  | .ok s => s
  | .error _ => st

/-- A status that ties up a copy: borrowed or overdue. -/
def isOpen (s : BorrowStatus) : Bool :=
  s == .borrowed || s == .overdue

/-- Number of open (borrowed or overdue) records referencing a book. -/
def openCount (recs : List BorrowRecord) (bid : Nat) : Nat :=
  recs.countP (fun r => r.book_id == bid && isOpen r.status)

/-- The catalog bound of the spec: the available count of a book lies
between zero and its total quantity. -/
def BookInvariant (b : Book) : Prop :=
  0 ≤ b.available_quantity ∧ b.available_quantity ≤ b.quantity

/-- Consistency of a library state: primary keys of books and of records
are unique, and for every book the available count is exactly the total
quantity minus the number of open records referencing it, and is
nonnegative. This is the accounting the handlers maintain. -/
def Accounted (st : LibraryState) : Prop :=
  (st.books.map Book.id).Nodup ∧
  (st.records.map BorrowRecord.id).Nodup ∧
  ∀ b ∈ st.books, 0 ≤ b.available_quantity ∧
    b.available_quantity = b.quantity - (openCount st.records b.id : Int)

instance (st : LibraryState) : Decidable (Accounted st) := by
  unfold Accounted; infer_instance

instance (b : Book) : Decidable (BookInvariant b) := by
  unfold BookInvariant; infer_instance

/-! ### List helper lemmas -/

/-- Counting after a keyed update: updating the unique element with key
`k` trades its contribution for that of its image. -/
theorem countP_map_keyed_update {α : Type} (key : α → Nat) (P : α → Bool)
    (g : α → α) (k : Nat) (l : List α) (a : α)
    (hN : (l.map key).Nodup) (ha : a ∈ l) (haid : key a = k) :
    (l.map (fun x => if key x = k then g x else x)).countP P
        + (if P a then 1 else 0)
      = l.countP P + (if P (g a) then 1 else 0) := by
  induction l with
  | nil => cases ha
  | cons h t ih =>
    rw [List.map_cons, List.nodup_cons] at hN
    obtain ⟨hnotmem, hNt⟩ := hN
    rcases List.mem_cons.mp ha with rfl | hat
    · have hmap : t.map (fun x => if key x = k then g x else x) = t := by
        have : ∀ x ∈ t, (if key x = k then g x else x) = x := by
          intro x hx
          have : key x ≠ k := by
            intro hk
            exact hnotmem (haid ▸ hk ▸ List.mem_map_of_mem key hx)
          simp [this]
        calc t.map (fun x => if key x = k then g x else x)
            = t.map id := List.map_congr_left (by simpa using this)
          _ = t := List.map_id t
      simp only [List.map_cons, hmap, if_pos haid, List.countP_cons]
      omega
    · have hh : key h ≠ k := by
        intro hk
        exact hnotmem (hk ▸ haid ▸ List.mem_map_of_mem key hat)
      have := ih hNt hat
      simp only [List.map_cons, if_neg hh, List.countP_cons]
      omega

/-- Counting is unchanged by a map that does not change the predicate. -/
theorem countP_map_invariant {α : Type} (P : α → Bool) (f : α → α)
    (l : List α) (h : ∀ x ∈ l, P (f x) = P x) :
    (l.map f).countP P = l.countP P := by
  induction l with
  | nil => rfl
  | cons a t ih =>
    simp only [List.map_cons, List.countP_cons]
    rw [ih (fun x hx => h x (List.mem_cons_of_mem a hx)),
      h a (List.mem_cons_self a t)]

/-- find? commutes with a map that does not change the predicate. -/
theorem find?_map_pred {α : Type} (f : α → α) (p : α → Bool)
    (hp : ∀ x, p (f x) = p x) (l : List α) :
    (l.map f).find? p = (l.find? p).map f := by
  induction l with
  | nil => rfl
  | cons a t ih =>
    simp only [List.map_cons, List.find?]
    rw [hp a]
    cases p a <;> simp [ih]

/-- Mapping with a key-preserving function keeps the keys nodup. -/
theorem nodup_map_key_preserved {α : Type} (key : α → Nat) (f : α → α)
    (hf : ∀ x, key (f x) = key x) (l : List α)
    (h : (l.map key).Nodup) : ((l.map f).map key).Nodup := by
  rw [List.map_map]
  have : l.map (key ∘ f) = l.map key :=
    List.map_congr_left (fun x _ => hf x)
  rw [this]
  exact h

/-- Keys of a filtered list stay nodup. -/
theorem nodup_map_filter {α : Type} (key : α → Nat) (q : α → Bool)
    (l : List α) (h : (l.map key).Nodup) :
    ((l.filter q).map key).Nodup :=
  ((List.filter_sublist l).map key).nodup h

/-- Counting over a filter that keeps every counted element. -/
theorem countP_filter_of_imp {α : Type} (P q : α → Bool) (l : List α)
    (h : ∀ x ∈ l, P x = true → q x = true) :
    (l.filter q).countP P = l.countP P := by
  induction l with
  | nil => rfl
  | cons a t ih =>
    have ht := ih (fun x hx => h x (List.mem_cons_of_mem a hx))
    by_cases hq : q a = true
    · rw [List.filter_cons_of_pos hq, List.countP_cons, List.countP_cons, ht]
    · have hP : P a = false := by
        cases hPa : P a
        · rfl
        · exact absurd (h a (List.mem_cons_self a t) hPa) hq
      rw [List.filter_cons_of_neg (by simpa using hq), ht, List.countP_cons, hP]
      simp

/-! ### Inversion lemmas: what a successful operation tells us -/

/-- Unfolding a successful borrow: the checks passed and the new state is
the old one with the decremented book and the appended record. -/
theorem borrow_book_ok_inv {st : LibraryState} {u : User} {bid now rid : Nat}
    {st' : LibraryState} (h : borrow_book st u bid now rid = .ok st') :
    u.role = .student ∧
    ∃ bk, getBook st bid = some bk ∧ 1 ≤ bk.available_quantity ∧
      st.records.any (fun r =>
        r.user_id == u.id && r.book_id == bid && r.status == .borrowed) = false ∧
      st' = { st with
        books := st.books.map (fun b =>
          if b.id = bid then
            { b with available_quantity := b.available_quantity - 1 }
          else b)
        records := st.records ++ [newBorrowRecord u bid now rid] } := by
  unfold borrow_book at h
  split at h
  next => exact Except.noConfusion h
  next hrole =>
    split at h
    next => exact Except.noConfusion h
    next bk hg =>
      split at h
      next => exact Except.noConfusion h
      next hav =>
        split at h
        next => exact Except.noConfusion h
        next hdup =>
          injection h with h
          exact ⟨not_not.mp hrole, bk, hg, by omega,
            Bool.eq_false_iff.mpr hdup, h.symm⟩

/-- Unfolding a successful return: the record exists, the requester may
act on it, it was not yet returned, and the new state marks it returned
and increments the book. -/
theorem return_book_ok_inv {st : LibraryState} {rid : Nat} {u : User}
    {now : Nat} {st' : LibraryState}
    (h : return_book st rid u now = .ok st') :
    ∃ r0, getRecord st rid = some r0 ∧
      (r0.user_id = u.id ∨ u.role = .librarian) ∧ r0.status ≠ .returned ∧
      st' = { st with
        records := st.records.map (fun r =>
          if r.id = rid then
            { r with return_date := some now, status := .returned }
          else r)
        books := st.books.map (fun b =>
          if b.id = r0.book_id then
            { b with available_quantity := b.available_quantity + 1 }
          else b) } := by
  unfold return_book at h
  split at h
  next => exact Except.noConfusion h
  next r0 hg =>
    split at h
    next => exact Except.noConfusion h
    next hrole =>
      split at h
      next => exact Except.noConfusion h
      next hret =>
        injection h with h
        refine ⟨r0, hg, ?_, hret, h.symm⟩
        by_cases hown : r0.user_id = u.id
        · exact Or.inl hown
        · right
          by_contra hlib
          exact hrole ⟨hown, hlib⟩

/-- Unfolding a successful edit: the book exists and the new state maps
the update over the catalog. -/
theorem edit_book_ok_inv {st : LibraryState} {bid : Nat} {form : BookForm}
    {st' : LibraryState} (h : edit_book st bid form = .ok st') :
    ∃ bk, getBook st bid = some bk ∧
      st' = { st with books := st.books.map (fun b =>
        if b.id = bid then
          { b with
            title := form.title
            author := form.author
            isbn := form.isbn
            category := form.category
            description := form.description
            quantity := form.quantity
            available_quantity :=
              form.quantity - (b.quantity - b.available_quantity)
            publication_year := form.publication_year }
        else b) } := by
  unfold edit_book at h
  split at h
  next => exact Except.noConfusion h
  next bk hg =>
    injection h with h
    exact ⟨bk, hg, h.symm⟩

/-- Unfolding a successful deletion: the book exists, no borrowed-status
record references it, and the book and its records are removed. -/
theorem delete_book_ok_inv {st : LibraryState} {bid : Nat}
    {st' : LibraryState} (h : delete_book st bid = .ok st') :
    ∃ bk, getBook st bid = some bk ∧
      (st.records.filter (fun r =>
        r.book_id == bid && r.status == .borrowed)).length = 0 ∧
      st' = { st with
        books := st.books.filter (fun b => !(b.id == bid))
        records := st.records.filter (fun r => !(r.book_id == bid)) } := by
  unfold delete_book at h
  split at h
  next => exact Except.noConfusion h
  next bk hg =>
    split at h
    next => exact Except.noConfusion h
    next hcnt =>
      injection h with h
      exact ⟨bk, hg, by omega, h.symm⟩

/-- Unfolding a successful catalog insertion: no ISBN clash and the book
is appended with every copy available. -/
theorem add_book_ok_inv {st : LibraryState} {form : BookForm} {nbid : Nat}
    {st' : LibraryState} (h : add_book st form nbid = .ok st') :
    st.books.any (fun b => b.isbn == form.isbn) = false ∧
    st' = { st with books := st.books ++
      [{ id := nbid
         title := form.title
         author := form.author
         isbn := form.isbn
         category := form.category
         description := form.description
         quantity := form.quantity
         available_quantity := form.quantity
         publication_year := form.publication_year }] } := by
  unfold add_book at h
  split at h
  next => exact Except.noConfusion h
  next hisbn =>
    injection h with h
    exact ⟨Bool.eq_false_iff.mpr hisbn, h.symm⟩

/-- Unfolding a successful registration: both uniqueness checks passed
and the account is appended with the requested role. -/
theorem register_ok_inv {st : LibraryState} {un em pw : String} {ro : Role}
    {nid : Nat} {st' : LibraryState}
    (h : register st un em pw ro nid = .ok st') :
    st.users.any (fun u => u.username == un) = false ∧
    st.users.any (fun u => u.email == em) = false ∧
    st' = { st with users := st.users ++
      [{ id := nid, username := un, email := em, password := pw, role := ro }] } := by
  unfold register at h
  split at h
  next => exact Except.noConfusion h
  next hun =>
    split at h
    next => exact Except.noConfusion h
    next hem =>
      injection h with h
      exact ⟨Bool.eq_false_iff.mpr hun, Bool.eq_false_iff.mpr hem, h.symm⟩

/-! ### Preservation of the accounting invariant -/

/-- A successful book lookup returns a member of the table with the
requested key. -/
theorem getBook_mem {st : LibraryState} {bid : Nat} {bk : Book}
    (h : getBook st bid = some bk) : bk ∈ st.books ∧ bk.id = bid :=
  ⟨List.mem_of_find?_eq_some h, by simpa using List.find?_some h⟩

/-- A successful record lookup returns a member of the table with the
requested key. -/
theorem getRecord_mem {st : LibraryState} {rid : Nat} {r0 : BorrowRecord}
    (h : getRecord st rid = some r0) : r0 ∈ st.records ∧ r0.id = rid :=
  ⟨List.mem_of_find?_eq_some h, by simpa using List.find?_some h⟩

/-- A successful borrow from a consistent state, with a fresh record id,
leaves the state consistent. -/
theorem borrow_preserves_Accounted {st : LibraryState} {u : User}
    {bid now rid : Nat} {st' : LibraryState}
    (hA : Accounted st) (hfresh : ∀ r ∈ st.records, r.id ≠ rid)
    (h : borrow_book st u bid now rid = .ok st') : Accounted st' := by
  obtain ⟨hrole, bk, hg, hav, hdup, rfl⟩ := borrow_book_ok_inv h
  obtain ⟨hBN, hRN, hacc⟩ := hA
  obtain ⟨hbkmem, hbkid⟩ := getBook_mem hg
  refine ⟨?_, ?_, ?_⟩
  · exact nodup_map_key_preserved Book.id _
      (fun b => by by_cases hb : b.id = bid <;> simp [hb]) st.books hBN
  · rw [List.map_append]
    rw [List.nodup_append]
    refine ⟨hRN, List.nodup_singleton _, ?_⟩
    intro a ha hmem
    obtain ⟨r, hr, hid⟩ := List.mem_map.mp ha
    have : a = rid := by simpa [newBorrowRecord] using hmem
    exact hfresh r hr (this ▸ hid)
  · intro b' hb'
    obtain ⟨b, hb, rfl⟩ := List.mem_map.mp hb'
    have hacc_b := hacc b hb
    by_cases hbidq : b.id = bid
    · have hbeq : b = bk :=
        List.inj_on_of_nodup_map hBN hb hbkmem (by rw [hbidq, hbkid])
      have hbav : 1 ≤ b.available_quantity := hbeq ▸ hav
      rw [if_pos hbidq]
      have hone : List.countP (fun r =>
          r.book_id == b.id && isOpen r.status)
          [newBorrowRecord u bid now rid] = 1 := by
        simp [newBorrowRecord, isOpen, hbidq]
      refine ⟨by simp only []; omega, ?_⟩
      show b.available_quantity - 1 =
        b.quantity - (openCount (st.records ++ [newBorrowRecord u bid now rid]) b.id : Int)
      unfold openCount at hacc_b ⊢
      rw [List.countP_append, hone]
      push_cast
      omega
    · rw [if_neg hbidq]
      have hzero : List.countP (fun r =>
          r.book_id == b.id && isOpen r.status)
          [newBorrowRecord u bid now rid] = 0 := by
        simp [newBorrowRecord, isOpen]
        intro hc
        exact absurd hc.symm hbidq
      refine ⟨hacc_b.1, ?_⟩
      show b.available_quantity =
        b.quantity - (openCount (st.records ++ [newBorrowRecord u bid now rid]) b.id : Int)
      unfold openCount at hacc_b ⊢
      rw [List.countP_append, hzero]
      push_cast
      omega

/-- A successful return from a consistent state leaves the state
consistent: the open record it closes is the copy it hands back. -/
theorem return_preserves_Accounted {st : LibraryState} {rid : Nat}
    {u : User} {now : Nat} {st' : LibraryState}
    (hA : Accounted st) (h : return_book st rid u now = .ok st') :
    Accounted st' := by
  obtain ⟨r0, hg, hperm, hret, rfl⟩ := return_book_ok_inv h
  obtain ⟨hBN, hRN, hacc⟩ := hA
  obtain ⟨hr0mem, hr0id⟩ := getRecord_mem hg
  refine ⟨?_, ?_, ?_⟩
  · exact nodup_map_key_preserved Book.id _
      (fun b => by by_cases hb : b.id = r0.book_id <;> simp [hb]) st.books hBN
  · exact nodup_map_key_preserved BorrowRecord.id _
      (fun r => by by_cases hr : r.id = rid <;> simp [hr]) st.records hRN
  · intro b' hb'
    obtain ⟨b, hb, rfl⟩ := List.mem_map.mp hb'
    have hacc_b := hacc b hb
    have hcount := countP_map_keyed_update BorrowRecord.id
      (fun r => r.book_id == b.id && isOpen r.status)
      (fun r => { r with return_date := some now, status := .returned })
      rid st.records r0 hRN hr0mem hr0id
    by_cases hbidq : b.id = r0.book_id
    · rw [if_pos hbidq]
      have hPr0 : (r0.book_id == b.id && isOpen r0.status) = true := by
        cases hs : r0.status with
        | borrowed => simp [isOpen, hbidq, hs]
        | returned => exact absurd hs hret
        | overdue => simp [isOpen, hbidq, hs]
      have hPg : ((r0.book_id == b.id && isOpen BorrowStatus.returned) : Bool)
          = false := by
        simp [isOpen]
      simp only [hPr0, hPg, Bool.false_eq_true, if_true, if_false] at hcount
      refine ⟨by simp only []; omega, ?_⟩
      show b.available_quantity + 1 = b.quantity -
        (openCount (st.records.map (fun r =>
          if r.id = rid then
            { r with return_date := some now, status := .returned }
          else r)) b.id : Int)
      unfold openCount at hacc_b ⊢
      omega
    · rw [if_neg hbidq]
      have hPr0 : (r0.book_id == b.id && isOpen r0.status) = false := by
        have : r0.book_id ≠ b.id := fun hc => hbidq hc.symm
        simp [this]
      have hPg : ((r0.book_id == b.id && isOpen BorrowStatus.returned) : Bool)
          = false := by
        simp [isOpen]
      simp only [hPr0, hPg, Bool.false_eq_true, if_true, if_false] at hcount
      refine ⟨hacc_b.1, ?_⟩
      show b.available_quantity = b.quantity -
        (openCount (st.records.map (fun r =>
          if r.id = rid then
            { r with return_date := some now, status := .returned }
          else r)) b.id : Int)
      unfold openCount at hacc_b ⊢
      omega

/-- A successful edit from a consistent state leaves the state
consistent, provided the new total is at least the number of currently
borrowed copies of the edited book. -/
theorem edit_preserves_Accounted {st : LibraryState} {bid : Nat}
    {form : BookForm} {bk : Book} {st' : LibraryState}
    (hA : Accounted st) (hg : getBook st bid = some bk)
    (hguard : bk.quantity - bk.available_quantity ≤ form.quantity)
    (h : edit_book st bid form = .ok st') : Accounted st' := by
  obtain ⟨bk', hg', rfl⟩ := edit_book_ok_inv h
  rw [hg] at hg'
  injection hg' with hg'
  subst hg'
  obtain ⟨hBN, hRN, hacc⟩ := hA
  obtain ⟨hbkmem, hbkid⟩ := getBook_mem hg
  refine ⟨?_, hRN, ?_⟩
  · exact nodup_map_key_preserved Book.id _
      (fun b => by by_cases hb : b.id = bid <;> simp [hb]) st.books hBN
  · intro b' hb'
    obtain ⟨b, hb, rfl⟩ := List.mem_map.mp hb'
    have hacc_b := hacc b hb
    by_cases hbidq : b.id = bid
    · have hbeq : b = bk :=
        List.inj_on_of_nodup_map hBN hb hbkmem (by rw [hbidq, hbkid])
      have hguard_b : b.quantity - b.available_quantity ≤ form.quantity :=
        hbeq ▸ hguard
      rw [if_pos hbidq]
      refine ⟨by simp only []; omega, ?_⟩
      show form.quantity - (b.quantity - b.available_quantity) =
        form.quantity - (openCount st.records b.id : Int)
      omega
    · rw [if_neg hbidq]
      exact hacc_b

/-- A successful deletion from a consistent state leaves the state
consistent: the removed borrow records all referenced the removed book. -/
theorem delete_preserves_Accounted {st : LibraryState} {bid : Nat}
    {st' : LibraryState} (hA : Accounted st)
    (h : delete_book st bid = .ok st') : Accounted st' := by
  obtain ⟨bk, hg, hcnt, rfl⟩ := delete_book_ok_inv h
  obtain ⟨hBN, hRN, hacc⟩ := hA
  refine ⟨nodup_map_filter Book.id _ st.books hBN,
    nodup_map_filter BorrowRecord.id _ st.records hRN, ?_⟩
  intro b hb
  obtain ⟨hbmem, hbkeep⟩ := List.mem_filter.mp hb
  have hbid : b.id ≠ bid := by simpa using hbkeep
  have hacc_b := hacc b hbmem
  have hcnteq : openCount (st.records.filter (fun r => !(r.book_id == bid))) b.id
      = openCount st.records b.id := by
    unfold openCount
    refine countP_filter_of_imp _ _ st.records ?_
    intro r _ hP
    have hrb : r.book_id = b.id := by
      have hsplit := (Bool.and_eq_true _ _).mp hP
      simpa using hsplit.1
    simpa [hrb] using hbid
  exact ⟨hacc_b.1, by rw [hcnteq]; exact hacc_b.2⟩

/-- A successful insertion of a fresh book with a nonnegative quantity
into a consistent state leaves the state consistent. -/
theorem add_preserves_Accounted {st : LibraryState} {form : BookForm}
    {nbid : Nat} {st' : LibraryState}
    (hA : Accounted st)
    (hfreshb : ∀ b ∈ st.books, b.id ≠ nbid)
    (hfreshr : ∀ r ∈ st.records, r.book_id ≠ nbid)
    (hq : 0 ≤ form.quantity)
    (h : add_book st form nbid = .ok st') : Accounted st' := by
  obtain ⟨hisbn, rfl⟩ := add_book_ok_inv h
  obtain ⟨hBN, hRN, hacc⟩ := hA
  refine ⟨?_, hRN, ?_⟩
  · rw [List.map_append, List.nodup_append]
    refine ⟨hBN, List.nodup_singleton _, ?_⟩
    intro a ha hmem
    obtain ⟨b, hbmem, hbid⟩ := List.mem_map.mp ha
    have : a = nbid := by simpa using hmem
    exact hfreshb b hbmem (this ▸ hbid)
  · intro b hb
    rcases List.mem_append.mp hb with hold | hnew
    · exact hacc b hold
    · have hbeq := List.mem_singleton.mp hnew
      subst hbeq
      have hzero : openCount st.records nbid = 0 := by
        unfold openCount
        rw [List.countP_eq_zero]
        intro r hr
        simp [hfreshr r hr]
      refine ⟨hq, ?_⟩
      show form.quantity = form.quantity - (openCount st.records nbid : Int)
      rw [hzero]
      simp

/-- In a consistent state every book satisfies the catalog bound. -/
theorem Accounted_implies_bound {st : LibraryState} (hA : Accounted st) :
    ∀ b ∈ st.books, BookInvariant b := by
  intro b hb
  obtain ⟨_, _, hacc⟩ := hA
  obtain ⟨h0, heq⟩ := hacc b hb
  exact ⟨h0, by omega⟩

/-! ### Concrete states used by counterexamples and witnesses -/

/-- A student account. -/
def alice : User :=
  { id := 1, username := "alice", email := "alice@mail.example",
    password := "hash1", role := .student }

/-- A second student account. -/
def bob : User :=
  { id := 2, username := "bob", email := "bob@mail.example",
    password := "hash2", role := .student }

/-- A librarian account. -/
def libby : User :=
  { id := 3, username := "libby", email := "libby@mail.example",
    password := "hash3", role := .librarian }

/-- A catalog book with five copies of which three are out. -/
def gatsby : Book :=
  { id := 1, title := "The Great Gatsby", author := "F. Scott Fitzgerald",
    isbn := "9780743273565", category := "Fiction", description := "",
    quantity := 5, available_quantity := 2, publication_year := some 1925 }

/-- An open borrowed record for a given user, book and record id. -/
def openRec (rid uid bid : Nat) : BorrowRecord :=
  { id := rid, user_id := uid, book_id := bid, borrow_date := 0,
    return_date := none, due_date := fourteen_days, status := .borrowed }

/-- Three copies of the book are out to three users; the available count
of two is consistent with the ledger. -/
def c1State : LibraryState :=
  { users := [alice, bob, libby]
    books := [gatsby]
    records := [openRec 1 1 1, openRec 2 2 1, openRec 3 3 1] }

/-- The staff edit that shrinks the total to two while three are out. -/
def c1Form : BookForm :=
  { title := "The Great Gatsby", author := "F. Scott Fitzgerald",
    isbn := "9780743273565", category := "Fiction", description := "",
    quantity := 2, publication_year := some 1925 }

/-- A small consistent state for the preservation witness: one book with
one of two copies out, borrowed by bob. -/
def c1WState : LibraryState :=
  { users := [alice, bob]
    books := [{ id := 1, title := "T", author := "A", isbn := "1234567890",
                category := "Fiction", description := "", quantity := 2,
                available_quantity := 1, publication_year := none }]
    records := [openRec 1 2 1] }

/-! ### The claims -/

/-- C1, counterexample: from a consistent state in which three of five
copies are out, the staff edit that sets the total to two drives the
available count of the book to minus one, so the catalog bound
0 ≤ available_quantity ≤ quantity does not survive every operation. -/
theorem c1_counterexample :
    Accounted c1State ∧
    ¬ ∀ b ∈ (runEdit c1State 1 c1Form).books, BookInvariant b := by
  constructor
  · decide
  · decide

/-- C1, amended: from a consistent state (available counts agree with
the open records of the ledger, keys unique) the invariant
0 ≤ available_quantity ≤ quantity is preserved by a successful borrow
(with a fresh record id), return, catalog add (fresh book id,
nonnegative form quantity), and delete; a catalog edit preserves it only
under the guard that the new total is at least the number of currently
borrowed copies — without that guard the edit can make the available
count negative, as the counterexample shows. -/
theorem c1_invariant_preservation :
    (∀ st u bid now rid st', Accounted st → (∀ r ∈ st.records, r.id ≠ rid) →
      borrow_book st u bid now rid = .ok st' →
      Accounted st' ∧ ∀ b ∈ st'.books, BookInvariant b) ∧
    (∀ st rid u now st', Accounted st →
      return_book st rid u now = .ok st' →
      Accounted st' ∧ ∀ b ∈ st'.books, BookInvariant b) ∧
    (∀ st form nbid st', Accounted st → (∀ b ∈ st.books, b.id ≠ nbid) →
      (∀ r ∈ st.records, r.book_id ≠ nbid) → 0 ≤ form.quantity →
      add_book st form nbid = .ok st' →
      Accounted st' ∧ ∀ b ∈ st'.books, BookInvariant b) ∧
    (∀ st bid form bk st', Accounted st → getBook st bid = some bk →
      bk.quantity - bk.available_quantity ≤ form.quantity →
      edit_book st bid form = .ok st' →
      Accounted st' ∧ ∀ b ∈ st'.books, BookInvariant b) ∧
    (∀ st bid st', Accounted st →
      delete_book st bid = .ok st' →
      Accounted st' ∧ ∀ b ∈ st'.books, BookInvariant b) := by
  refine ⟨?_, ?_, ?_, ?_, ?_⟩
  · intro st u bid now rid st' hA hfresh h
    have hA' := borrow_preserves_Accounted hA hfresh h
    exact ⟨hA', Accounted_implies_bound hA'⟩
  · intro st rid u now st' hA h
    have hA' := return_preserves_Accounted hA h
    exact ⟨hA', Accounted_implies_bound hA'⟩
  · intro st form nbid st' hA hfb hfr hq h
    have hA' := add_preserves_Accounted hA hfb hfr hq h
    exact ⟨hA', Accounted_implies_bound hA'⟩
  · intro st bid form bk st' hA hg hguard h
    have hA' := edit_preserves_Accounted hA hg hguard h
    exact ⟨hA', Accounted_implies_bound hA'⟩
  · intro st bid st' hA h
    have hA' := delete_preserves_Accounted hA h
    exact ⟨hA', Accounted_implies_bound hA'⟩

/-- C1, witness: the borrow conjunct applied to a concrete consistent
state; the resulting state is again consistent and in bounds. -/
theorem c1_invariant_preservation_witness :
    Accounted (runBorrow c1WState alice 1 100 2) ∧
    ∀ b ∈ (runBorrow c1WState alice 1 100 2).books, BookInvariant b :=
  c1_invariant_preservation.1 c1WState alice 1 100 2 _
    (by decide) (by decide) rfl

/-- An overdue record for a given user, book and record id. -/
def overdueRec (rid uid bid : Nat) : BorrowRecord :=
  { id := rid, user_id := uid, book_id := bid, borrow_date := 0,
    return_date := none, due_date := 10, status := .overdue }

/-- A consistent state where alice holds an overdue copy of book 1 and
one further copy is on the shelf. -/
def c2State : LibraryState :=
  { users := [alice]
    books := [{ id := 1, title := "T", author := "A", isbn := "1234567897",
                category := "Fiction", description := "", quantity := 2,
                available_quantity := 1, publication_year := none }]
    records := [overdueRec 1 1 1] }

/-- A book with one of two copies on the shelf. -/
def c2WBook : Book :=
  { id := 1, title := "T", author := "A", isbn := "1234567897",
    category := "Fiction", description := "", quantity := 2,
    available_quantity := 1, publication_year := none }

/-- A state where alice holds a borrowed copy of book 1. -/
def c2WState : LibraryState :=
  { users := [alice], books := [c2WBook], records := [openRec 1 1 1] }

/-- C2, counterexample: alice holds an open (overdue) record for book 1,
yet a new borrow by alice does not signal DuplicateBorrow: it succeeds,
appends a second record for the pair, and decrements the available
count. The frozen claim, which promises DuplicateBorrow for any open
record in the set borrowed or overdue, is false on the code. -/
theorem c2_counterexample :
    (∃ r ∈ c2State.records, r.user_id = alice.id ∧ r.book_id = 1 ∧
      (r.status = .borrowed ∨ r.status = .overdue)) ∧
    borrow_book c2State alice 1 100 2 ≠ .error .DuplicateBorrow ∧
    (runBorrow c2State alice 1 100 2).records.length
      = c2State.records.length + 1 ∧
    available_of (runBorrow c2State alice 1 100 2) 1 = some 0 := by
  refine ⟨?_, ?_, ?_, ?_⟩ <;> decide

/-- C2, amended: for a student whose requested book exists with at least
one available copy, an existing record for the pair with status borrowed
makes the borrow signal DuplicateBorrow and leave the state unchanged;
records whose status is overdue do not block a new borrow (the duplicate
query filters on the borrowed status only). -/
theorem c2_duplicate_borrow :
    ∀ st u bid now rid bk, u.role = .student →
      getBook st bid = some bk → 1 ≤ bk.available_quantity →
      (∃ r ∈ st.records, r.user_id = u.id ∧ r.book_id = bid ∧
        r.status = .borrowed) →
      borrow_book st u bid now rid = .error .DuplicateBorrow ∧
      runBorrow st u bid now rid = st := by
  intro st u bid now rid bk hrole hg hav hdup
  have hany : st.records.any (fun r =>
      r.user_id == u.id && r.book_id == bid && r.status == .borrowed) = true := by
    rw [List.any_eq_true]
    obtain ⟨r, hr, h1, h2, h3⟩ := hdup
    exact ⟨r, hr, by simp [h1, h2, h3]⟩
  have hmain : borrow_book st u bid now rid = .error .DuplicateBorrow := by
    simp only [borrow_book, hg]
    rw [if_neg (fun hc => hc hrole),
      if_neg (by omega : ¬ bk.available_quantity < 1), if_pos hany]
  refine ⟨hmain, ?_⟩
  unfold runBorrow
  rw [hmain]

/-- C2, witness: alice holds a borrowed copy of book 1 and tries to
borrow it again; the code refuses with DuplicateBorrow and the state is
untouched. -/
theorem c2_duplicate_borrow_witness :
    borrow_book c2WState alice 1 100 2 = .error .DuplicateBorrow ∧
    runBorrow c2WState alice 1 100 2 = c2WState :=
  c2_duplicate_borrow c2WState alice 1 100 2 c2WBook rfl (by decide)
    (by decide) (by decide)

/-- A consistent state where the only copy of book 1 is out and the
record is overdue. -/
def c3State : LibraryState :=
  { users := [alice]
    books := [{ id := 1, title := "T", author := "A", isbn := "1234567897",
                category := "Fiction", description := "", quantity := 1,
                available_quantity := 0, publication_year := none }]
    records := [overdueRec 1 1 1] }

/-- C3, counterexample: book 1 has an open (overdue) record, yet deleting
it does not signal Conflict: the book and its records are removed. The
frozen claim, which forbids deletion while any record in the set borrowed
or overdue exists, is false on the code. -/
theorem c3_counterexample :
    (∃ r ∈ c3State.records, r.book_id = 1 ∧
      (r.status = .borrowed ∨ r.status = .overdue)) ∧
    delete_book c3State 1 ≠ .error .Conflict ∧
    (runDelete c3State 1).books = [] ∧
    (runDelete c3State 1).records = [] := by
  refine ⟨?_, ?_, ?_, ?_⟩ <;> decide

/-- C3, amended: deleting an existing book fails with Conflict, leaving
the state unchanged, exactly when some record referencing it has status
borrowed; when no such record exists the deletion succeeds and removes
the book together with every record referencing it — records whose
status is overdue do not block the deletion (the blocking count filters
on the borrowed status only). -/
theorem c3_delete_conflict :
    ∀ st bid bk, getBook st bid = some bk →
      ((∃ r ∈ st.records, r.book_id = bid ∧ r.status = .borrowed) →
        delete_book st bid = .error .Conflict ∧ runDelete st bid = st) ∧
      ((¬ ∃ r ∈ st.records, r.book_id = bid ∧ r.status = .borrowed) →
        delete_book st bid = .ok { st with
          books := st.books.filter (fun b => !(b.id == bid))
          records := st.records.filter (fun r => !(r.book_id == bid)) }) := by
  intro st bid bk hg
  constructor
  · intro hex
    have hpos : 0 < (st.records.filter (fun r =>
        r.book_id == bid && r.status == .borrowed)).length := by
      rw [← List.countP_eq_length_filter]
      rw [List.countP_pos_iff]
      obtain ⟨r, hr, h1, h2⟩ := hex
      exact ⟨r, hr, by simp [h1, h2]⟩
    have hmain : delete_book st bid = .error .Conflict := by
      simp only [delete_book, hg]
      rw [if_pos hpos]
    refine ⟨hmain, ?_⟩
    unfold runDelete
    rw [hmain]
  · intro hnex
    have hzero : ¬ 0 < (st.records.filter (fun r =>
        r.book_id == bid && r.status == .borrowed)).length := by
      rw [← List.countP_eq_length_filter]
      rw [List.countP_pos_iff]
      intro ⟨r, hr, hP⟩
      obtain ⟨h12, h3⟩ := (Bool.and_eq_true _ _).mp hP
      exact hnex ⟨r, hr, by simpa using h12, by simpa using h3⟩
    simp only [delete_book, hg]
    rw [if_neg hzero]

/-- C3, witness: alice holds a borrowed copy of book 1 in c2WState, so
deletion of book 1 signals Conflict and the catalog is untouched. -/
theorem c3_delete_conflict_witness :
    delete_book c2WState 1 = .error .Conflict ∧
    runDelete c2WState 1 = c2WState :=
  (c3_delete_conflict c2WState 1 c2WBook rfl).1 (by decide)

/-- The id of an edited book is unchanged, so lookups commute with the
edit map. -/
theorem getBook_after_edit {st : LibraryState} {bid : Nat} {form : BookForm}
    {bk : Book} (hg : getBook st bid = some bk) :
    getBook { st with books := st.books.map (fun b =>
      if b.id = bid then
        { b with
          title := form.title
          author := form.author
          isbn := form.isbn
          category := form.category
          description := form.description
          quantity := form.quantity
          available_quantity :=
            form.quantity - (b.quantity - b.available_quantity)
          publication_year := form.publication_year }
      else b) } bid = some { bk with
        title := form.title
        author := form.author
        isbn := form.isbn
        category := form.category
        description := form.description
        quantity := form.quantity
        available_quantity :=
          form.quantity - (bk.quantity - bk.available_quantity)
        publication_year := form.publication_year } := by
  have hid := (getBook_mem hg).2
  unfold getBook at hg ⊢
  rw [find?_map_pred _ _ (fun x => by by_cases hx : x.id = bid <;> simp [hx]),
    hg, Option.map_some']
  rw [if_pos hid]

/-- C4: editing an existing book always succeeds and sets the new
available count to the new total minus the borrowed count, where the
borrowed count is the old total minus the old available count; nothing
clamps the result, so a new total below the borrowed count yields a
negative available count (see the witness, where the result is minus
one). -/
theorem c4_edit_recomputes :
    ∀ st bid form bk, getBook st bid = some bk →
      ∃ st', edit_book st bid form = .ok st' ∧
        getBook st' bid = some { bk with
          title := form.title
          author := form.author
          isbn := form.isbn
          category := form.category
          description := form.description
          quantity := form.quantity
          available_quantity :=
            form.quantity - (bk.quantity - bk.available_quantity)
          publication_year := form.publication_year } := by
  intro st bid form bk hg
  refine ⟨_, ?_, getBook_after_edit hg⟩
  simp only [edit_book, hg]

/-- C4, witness: shrinking the total from five to two while three copies
are out leaves the book with quantity two and available count minus one:
2 - (5 - 2) = -1. -/
theorem c4_edit_recomputes_witness :
    available_of (runEdit c1State 1 c1Form) 1 = some (-1) := by
  obtain ⟨st', h1, h2⟩ := c4_edit_recomputes c1State 1 c1Form gatsby (by decide)
  unfold runEdit
  rw [h1]
  unfold available_of
  rw [h2]
  decide

/-- A state with one student, one book with one free copy, no records. -/
def c5WState : LibraryState :=
  { users := [alice], books := [c2WBook], records := [] }

/-- C5: a student borrowing an existing book with at least one available
copy and no open (borrowed or overdue) record for the pair succeeds:
exactly one record is appended, carrying the borrower, the book, borrow
date now, due date now plus fourteen days, no return date and the
borrowed status, and the available count of that book drops by exactly
one. -/
theorem c5_borrow_effect :
    ∀ st u bid now rid bk, u.role = .student →
      getBook st bid = some bk → 1 ≤ bk.available_quantity →
      (¬ ∃ r ∈ st.records, r.user_id = u.id ∧ r.book_id = bid ∧
        (r.status = .borrowed ∨ r.status = .overdue)) →
      ∃ st', borrow_book st u bid now rid = .ok st' ∧
        st'.records = st.records ++
          [{ id := rid, user_id := u.id, book_id := bid, borrow_date := now,
             return_date := none, due_date := now + fourteen_days,
             status := .borrowed }] ∧
        available_of st' bid = some (bk.available_quantity - 1) := by
  intro st u bid now rid bk hrole hg hav hopen
  have hid := (getBook_mem hg).2
  have hany : st.records.any (fun r =>
      r.user_id == u.id && r.book_id == bid && r.status == .borrowed) = false := by
    rw [Bool.eq_false_iff]
    intro hc
    obtain ⟨r, hr, hP⟩ := List.any_eq_true.mp hc
    obtain ⟨h12, h3⟩ := (Bool.and_eq_true _ _).mp hP
    obtain ⟨h1, h2⟩ := (Bool.and_eq_true _ _).mp h12
    exact hopen ⟨r, hr, by simpa using h1, by simpa using h2,
      Or.inl (by simpa using h3)⟩
  have hok : borrow_book st u bid now rid = .ok { st with
      books := st.books.map (fun b =>
        if b.id = bid then
          { b with available_quantity := b.available_quantity - 1 }
        else b)
      records := st.records ++ [newBorrowRecord u bid now rid] } := by
    simp only [borrow_book, hg]
    rw [if_neg (fun hc => hc hrole),
      if_neg (by omega : ¬ bk.available_quantity < 1)]
    rw [hany]
    simp
  refine ⟨_, hok, rfl, ?_⟩
  unfold available_of getBook
  rw [find?_map_pred _ _ (fun x => by by_cases hx : x.id = bid <;> simp [hx])]
  unfold getBook at hg
  rw [hg, Option.map_some', Option.map_some', if_pos hid]

/-- C5, witness: alice borrows book 1 at time 100 in a fresh state; the
single appended record and the decremented available count are as the
claim demands. -/
theorem c5_borrow_effect_witness :
    (runBorrow c5WState alice 1 100 1).records =
      c5WState.records ++
        [{ id := 1, user_id := 1, book_id := 1, borrow_date := 100,
           return_date := none, due_date := 100 + fourteen_days,
           status := .borrowed }] ∧
    available_of (runBorrow c5WState alice 1 100 1) 1 = some 0 := by
  obtain ⟨st', h1, h2, h3⟩ := c5_borrow_effect c5WState alice 1 100 1 c2WBook
    rfl (by decide) (by decide) (by decide)
  unfold runBorrow
  rw [h1]
  exact ⟨h2, by rw [h3]; decide⟩

/-- A state whose single record was already returned. -/
def c6WState : LibraryState :=
  { users := [alice]
    books := [{ id := 1, title := "T", author := "A", isbn := "1234567897",
                category := "Fiction", description := "", quantity := 1,
                available_quantity := 1, publication_year := none }]
    records := [{ id := 1, user_id := 1, book_id := 1, borrow_date := 0,
                  return_date := some 50, due_date := fourteen_days,
                  status := .returned }] }

/-- C6: returning a record that is already returned — by its owner or by
a librarian — signals AlreadyReturned and changes nothing: the state,
and with it the available count of the book and the return date and
status of the record, is exactly the one before the call. -/
theorem c6_return_idempotent :
    ∀ st rid u now r0, getRecord st rid = some r0 →
      r0.status = .returned →
      (r0.user_id = u.id ∨ u.role = .librarian) →
      return_book st rid u now = .error .AlreadyReturned ∧
      runReturn st rid u now = st := by
  intro st rid u now r0 hg hret hperm
  have hnot : ¬ (r0.user_id ≠ u.id ∧ u.role ≠ Role.librarian) := by
    intro hc
    rcases hperm with h | h
    · exact hc.1 h
    · exact hc.2 h
  have hmain : return_book st rid u now = .error .AlreadyReturned := by
    simp only [return_book, hg]
    rw [if_neg hnot, if_pos hret]
  refine ⟨hmain, ?_⟩
  unfold runReturn
  rw [hmain]

/-- C6, witness: alice returns her already-returned record again; the
call reports AlreadyReturned and the state is untouched. -/
theorem c6_return_idempotent_witness :
    return_book c6WState 1 alice 77 = .error .AlreadyReturned ∧
    runReturn c6WState 1 alice 77 = c6WState :=
  c6_return_idempotent c6WState 1 alice 77
    { id := 1, user_id := 1, book_id := 1, borrow_date := 0,
      return_date := some 50, due_date := fourteen_days,
      status := .returned }
    (by decide) rfl (Or.inl rfl)

/-- C7: a permitted borrow followed immediately by a return of the
created record (by the same student, with a fresh record id) restores
the available count of the book to its value before the borrow. -/
theorem c7_round_trip :
    ∀ st u bid now rid now2 bk, u.role = .student →
      getBook st bid = some bk → 1 ≤ bk.available_quantity →
      (¬ ∃ r ∈ st.records, r.user_id = u.id ∧ r.book_id = bid ∧
        r.status = .borrowed) →
      (∀ r ∈ st.records, r.id ≠ rid) →
      ∃ st1 st2, borrow_book st u bid now rid = .ok st1 ∧
        return_book st1 rid u now2 = .ok st2 ∧
        available_of st2 bid = available_of st bid := by
  intro st u bid now rid now2 bk hrole hg hav hnodup hfresh
  have hid := (getBook_mem hg).2
  have hany : st.records.any (fun r =>
      r.user_id == u.id && r.book_id == bid && r.status == .borrowed) = false := by
    rw [Bool.eq_false_iff]
    intro hc
    obtain ⟨r, hr, hP⟩ := List.any_eq_true.mp hc
    obtain ⟨h12, h3⟩ := (Bool.and_eq_true _ _).mp hP
    obtain ⟨h1, h2⟩ := (Bool.and_eq_true _ _).mp h12
    exact hnodup ⟨r, hr, by simpa using h1, by simpa using h2,
      by simpa using h3⟩
  have hok1 : borrow_book st u bid now rid = .ok { st with
      books := st.books.map (fun b =>
        if b.id = bid then
          { b with available_quantity := b.available_quantity - 1 }
        else b)
      records := st.records ++ [newBorrowRecord u bid now rid] } := by
    simp only [borrow_book, hg]
    rw [if_neg (fun hc => hc hrole),
      if_neg (by omega : ¬ bk.available_quantity < 1)]
    rw [hany]
    simp
  have hfind : getRecord { st with
      books := st.books.map (fun b =>
        if b.id = bid then
          { b with available_quantity := b.available_quantity - 1 }
        else b)
      records := st.records ++ [newBorrowRecord u bid now rid] } rid
      = some (newBorrowRecord u bid now rid) := by
    unfold getRecord
    show (st.records ++ [newBorrowRecord u bid now rid]).find?
      (fun r => r.id == rid) = _
    rw [List.find?_append]
    have hnone : st.records.find? (fun r => r.id == rid) = none := by
      rw [List.find?_eq_none]
      intro x hx
      simp [hfresh x hx]
    rw [hnone]
    simp [newBorrowRecord]
  refine ⟨_,
    { users := st.users
      books := (st.books.map (fun b =>
          if b.id = bid then
            { b with available_quantity := b.available_quantity - 1 }
          else b)).map (fun b =>
          if b.id = (newBorrowRecord u bid now rid).book_id then
            { b with available_quantity := b.available_quantity + 1 }
          else b)
      records := (st.records ++ [newBorrowRecord u bid now rid]).map (fun r =>
          if r.id = rid then
            { r with return_date := some now2, status := .returned }
          else r) },
    hok1, ?_, ?_⟩
  · simp only [return_book, hfind]
    rw [if_neg (fun hc => hc.1 rfl),
      if_neg (by simp [newBorrowRecord] :
        ¬ (newBorrowRecord u bid now rid).status = .returned)]
  · unfold available_of getBook
    rw [find?_map_pred _ _ (fun x => by
        by_cases hx : x.id = (newBorrowRecord u bid now rid).book_id <;>
          simp [hx]),
      find?_map_pred _ _ (fun x => by by_cases hx : x.id = bid <;> simp [hx])]
    unfold getBook at hg
    rw [hg]
    simp only [Option.map_some', newBorrowRecord]
    rw [if_pos hid]
    simp only [if_pos rfl]
    have : bk.available_quantity - 1 + 1 = bk.available_quantity := by omega
    simp [this, hid]

/-- C7, witness: in the fresh state alice borrows book 1 and returns it
at once; the available count of book 1 comes back to its initial one. -/
theorem c7_round_trip_witness :
    ∃ st1 st2, borrow_book c5WState alice 1 100 1 = .ok st1 ∧
      return_book st1 1 alice 200 = .ok st2 ∧
      available_of st2 1 = available_of c5WState 1 :=
  c7_round_trip c5WState alice 1 100 1 200 c2WBook rfl (by decide)
    (by decide) (by decide) (by decide)

/-- Applying the lazy overdue update twice to a record is the same as
applying it once. -/
theorem refresh_record_idem (now : Nat) (r : BorrowRecord) :
    refresh_record now (refresh_record now r) = refresh_record now r := by
  by_cases hs : r.status = .borrowed
  · by_cases hd : now > r.due_date
    · have h1 : refresh_record now r = { r with status := .overdue } := by
        simp [refresh_record, is_overdue, hs, hd]
      rw [h1]
      simp [refresh_record]
    · have h1 : refresh_record now r = r := by
        simp [refresh_record, is_overdue, hs, hd]
      rw [h1, h1]
  · have h1 : refresh_record now r = r := by
      simp [refresh_record, hs]
    rw [h1, h1]

/-- An overdue record, for the C8 witness. -/
def c8Rec : BorrowRecord :=
  { id := 1, user_id := 1, book_id := 1, borrow_date := 0,
    return_date := none, due_date := 10, status := .overdue }

/-- C8: the dashboard sweep marks a record overdue exactly when it was
already overdue or it is borrowed with its due date strictly before now;
every record it does not mark is untouched, and the marked record
changes only its status; the sweep is idempotent at a fixed instant, and
a single update never moves a record out of the overdue status. -/
theorem c8_refresh_overdue :
    (∀ now r,
      ((refresh_record now r).status = .overdue ↔
        (r.status = .overdue ∨ (r.status = .borrowed ∧ r.due_date < now))) ∧
      ((r.status = .borrowed ∧ r.due_date < now) →
        refresh_record now r = { r with status := .overdue }) ∧
      (¬ (r.status = .borrowed ∧ r.due_date < now) →
        refresh_record now r = r)) ∧
    (∀ recs now,
      refresh_overdue (refresh_overdue recs now) now
        = refresh_overdue recs now) ∧
    (∀ now r, r.status = .overdue →
      (refresh_record now r).status = .overdue) := by
  refine ⟨?_, ?_, ?_⟩
  · intro now r
    refine ⟨?_, ?_, ?_⟩
    · cases hs : r.status <;> by_cases hd : r.due_date < now <;>
        simp [refresh_record, is_overdue, hs, hd]
    · intro ⟨hs, hd⟩
      simp [refresh_record, is_overdue, hs, hd]
    · intro hn
      by_cases hs : r.status = .borrowed
      · have hd : ¬ r.due_date < now := fun hd => hn ⟨hs, hd⟩
        simp [refresh_record, is_overdue, hs, hd]
      · simp [refresh_record, hs]
  · intro recs now
    unfold refresh_overdue
    rw [List.map_map]
    exact List.map_congr_left (fun r _ => refresh_record_idem now r)
  · intro now r hs
    simp [refresh_record, hs]

/-- C8, witness: on an overdue record the update keeps the overdue
status, and a second sweep over a one-record ledger changes nothing. -/
theorem c8_refresh_overdue_witness :
    (refresh_record 100 c8Rec).status = .overdue ∧
    refresh_overdue (refresh_overdue [c8Rec] 100) 100
      = refresh_overdue [c8Rec] 100 :=
  ⟨c8_refresh_overdue.2.2 100 c8Rec rfl, c8_refresh_overdue.2.1 [c8Rec] 100⟩

/-- C9: a registration request whose username exactly matches the
username of an existing account fails validation and the user table is
unchanged — no account is created, whatever the other fields are. -/
theorem c9_duplicate_username :
    ∀ st un em pw ro nid,
      (∃ u ∈ st.users, u.username = un) →
      register st un em pw ro nid = .error .ValidationError ∧
      runRegister st un em pw ro nid = st := by
  intro st un em pw ro nid hdup
  have hany : st.users.any (fun v => v.username == un) = true := by
    rw [List.any_eq_true]
    obtain ⟨u, hu, hname⟩ := hdup
    exact ⟨u, hu, by simp [hname]⟩
  have hmain : register st un em pw ro nid = .error .ValidationError := by
    unfold register
    rw [if_pos hany]
  refine ⟨hmain, ?_⟩
  unfold runRegister
  rw [hmain]

/-- C9, witness: registering the name alice again while alice exists is
refused and creates nothing. -/
theorem c9_duplicate_username_witness :
    register c5WState "alice" "new@mail.example" "secretpw" .student 9
      = .error .ValidationError ∧
    runRegister c5WState "alice" "new@mail.example" "secretpw" .student 9
      = c5WState :=
  c9_duplicate_username c5WState "alice" "new@mail.example" "secretpw"
    .student 9 (by decide)

/-- C10: registration is open — the handler takes no requester and no
authorization check — and the registrant picks the role; with a fresh
username and email the request for the librarian role succeeds and
appends an account whose role is librarian, giving an unauthenticated
visitor a staff account. -/
theorem c10_open_librarian_registration :
    ∀ st un em pw nid,
      (¬ ∃ u ∈ st.users, u.username = un) →
      (¬ ∃ u ∈ st.users, u.email = em) →
      register st un em pw .librarian nid = .ok { st with
        users := st.users ++
          [{ id := nid, username := un, email := em, password := pw,
             role := .librarian }] } ∧
      ∃ u ∈ (runRegister st un em pw .librarian nid).users,
        u.username = un ∧ u.role = .librarian := by
  intro st un em pw nid hun hem
  have hanyu : st.users.any (fun v => v.username == un) = false := by
    rw [Bool.eq_false_iff]
    intro hc
    obtain ⟨u, hu, hP⟩ := List.any_eq_true.mp hc
    exact hun ⟨u, hu, by simpa using hP⟩
  have hanye : st.users.any (fun v => v.email == em) = false := by
    rw [Bool.eq_false_iff]
    intro hc
    obtain ⟨u, hu, hP⟩ := List.any_eq_true.mp hc
    exact hem ⟨u, hu, by simpa using hP⟩
  have hmain : register st un em pw .librarian nid = .ok { st with
      users := st.users ++
        [{ id := nid, username := un, email := em, password := pw,
           role := .librarian }] } := by
    unfold register
    rw [hanyu, hanye]
    simp
  refine ⟨hmain, ?_⟩
  refine ⟨{ id := nid, username := un, email := em, password := pw,
              role := .librarian }, ?_, rfl, rfl⟩
  unfold runRegister
  rw [hmain]
  exact List.mem_append_right _ (List.mem_singleton.mpr rfl)

/-- C10, witness: on an empty directory the visitor registers as a
librarian and the directory then holds a librarian account with that
name. -/
theorem c10_open_librarian_registration_witness :
    register { users := [], books := [], records := [] } "eve"
        "eve@mail.example" "secretpw" .librarian 1
      = .ok { users := [{ id := 1, username := "eve",
                          email := "eve@mail.example", password := "secretpw",
                          role := .librarian }],
              books := [], records := [] } ∧
    ∃ u ∈ (runRegister { users := [], books := [], records := [] } "eve"
        "eve@mail.example" "secretpw" .librarian 1).users,
      u.username = "eve" ∧ u.role = .librarian :=
  c10_open_librarian_registration
    { users := [], books := [], records := [] } "eve" "eve@mail.example"
    "secretpw" 1 (by decide) (by decide)

end DigitalLibrary
